import Mathlib

/-
Verification development for the TIG Fractal Runtime
(src/TIGFractalEngine.py): a shallow embedding of its Pulse,
Triad and LatticeRuntime classes, together with theorems settling
the specification claims about them.

Modelling conventions:
* Python floats are modelled as exact rationals (ℚ); IEEE rounding is
  out of scope of the claims, which are about the algebraic structure
  of the updates.
* `math.sqrt` is not rational-valued, so every definition that uses it
  takes an abstract square-root function `sqf : ℚ → ℚ` as a parameter.
  Theorems that need properties of the real square root assume only
  `∀ x, 0 ≤ x → 0 ≤ sqf x` (true of `math.sqrt` on its domain);
  concrete evaluations pick inputs on which only `sqf 0` is reached,
  pinned to 0 (also true of `math.sqrt`).
* Measured wall-clock durations (`actual_ns` in `Pulse.wait`, the
  elapsed time of the work wrapped by `LatticeRuntime.op`) are
  nondeterministic inputs of the environment, so the corresponding
  Lean functions take them as explicit arguments.  Likewise
  `random.gauss(0, 0.001)` (argument `noise`) and
  `math.sin(fire_count * 0.1)` (argument `sinv`) in `_advance_spine`.
* A Python callable that may raise is modelled as an `Except ε α`
  value: `.ok r` is a normal return, `.error e` a raised exception.
* `Triad.observe` / `Triad._receive_child_coherence` mutate the node
  itself and then call into the parent; the Lean `Triad` functions
  give the node-local state change, and the fixed runtime tree
  (root → epoch → domain → micro) performs the upward calls
  explicitly in `feedMicro` / `feedDomain`, mirroring the recursion.
-/

namespace TIGF

/-! ### Constants (src/TIGFractalEngine.py lines 45-51) -/

def SIGMA : ℚ := 991/1000

def SIGMA_STAR : ℚ := 9/1000

def T_STAR : ℚ := 714/1000

/-- `FACTOR = SIGMA * (1 - SIGMA_STAR)` — precomputed in the source. -/
def FACTOR : ℚ := SIGMA * (1 - SIGMA_STAR)

def s_star (V A : ℚ) : ℚ := FACTOR * V * A

/-! ### Small helpers shared by the embedding -/

/-- Append to a `deque(maxlen := cap)`: push right, evict from the left. -/
def pushCap (cap : ℕ) (buf : List ℚ) (v : ℚ) : List ℚ :=
  let b := buf ++ [v]
  if b.length ≤ cap then b else b.drop (b.length - cap)

/-- Python `l[-n:]` (for `n > 0`): the last `n` elements, or all of them
if the list is shorter. -/
def takeLast (n : ℕ) (l : List ℚ) : List ℚ := l.drop (l.length - n)

/-- `[recent[i+1] - recent[i] for i in range(len(recent)-1)]`. -/
def diffsOf : List ℚ → List ℚ
  | a :: b :: rest => (b - a) :: diffsOf (b :: rest)
  | _ => []

/-- `sum(1 for i in range(len(diffs)-1) if (diffs[i] >= 0) == (diffs[i+1] >= 0))`. -/
def sameCount : List ℚ → ℕ
  | a :: b :: rest =>
      (if (decide (0 ≤ a)) = (decide (0 ≤ b)) then 1 else 0) + sameCount (b :: rest)
  | _ => 0

/-- The alignment computed in `Triad.observe` from the last raw
observations: 1.0 if the differences are all non-negative or all
non-positive, else `(same + 1) / len(diffs)`. -/
def alignmentOf (recent : List ℚ) : ℚ :=
  if (∀ d ∈ diffsOf recent, 0 ≤ d) ∨ (∀ d ∈ diffsOf recent, d ≤ 0) then 1
  else ((sameCount (diffsOf recent) : ℚ) + 1) / ((diffsOf recent).length : ℚ)

/-- `sum(vals) / len(vals)` over the values of a child-coherence map. -/
def childMean (m : List (String × ℚ)) : ℚ :=
  ((m.map Prod.snd).sum) / (((m.map Prod.snd).length : ℕ) : ℚ)

/-- Python `dict` assignment `m[k] = v`: overwrite in place if the key
exists, else append (dicts preserve insertion order). -/
def upsert {β : Type} : List (String × β) → String → β → List (String × β)
  | [], k, v => [(k, v)]
  | (k', v') :: rest, k, v =>
      if k' = k then (k, v) :: rest else (k', v') :: upsert rest k v

/-- `self.ops_by_domain[domain] = self.ops_by_domain.get(domain, 0) + 1`. -/
def bumpCount : List (String × ℕ) → String → List (String × ℕ)
  | [], k => [(k, 1)]
  | (k', n) :: rest, k =>
      if k' = k then (k, n + 1) :: rest else (k', n) :: bumpCount rest k

/-- Association-list lookup (the `dict` read). -/
def lookupCount : List (String × ℕ) → String → Option ℕ
  | [], _ => none
  | (k', n) :: rest, k => if k' = k then some n else lookupCount rest k

/-- Python `int(q)`: truncation toward zero. -/
def pyTrunc (q : ℚ) : ℤ := if 0 ≤ q then ⌊q⌋ else -⌊-q⌋

/-- Python `q % 1.0` (true mathematical mod, result in `[0,1)`). -/
def pyMod1 (q : ℚ) : ℚ := q - (⌊q⌋ : ℚ)

/-- The abstract square root all concrete evaluations use; on every
evaluation path below it is applied only to `0`, where it agrees with
`math.sqrt`. -/
def sqrtZero : ℚ → ℚ := fun _ => 0

/-! ### The Triad (src/TIGFractalEngine.py lines 171-297)

Node-local state of a `Triad`; `name`, `parent` and `children` are
structural and live in the runtime tree below. -/

structure Triad where
  count : ℕ
  micro_buf : List ℚ
  micro_len : ℕ
  self_ema : ℚ
  self_emv : ℚ
  macro_s_star : ℚ
  child_coherences : List (String × ℚ)
deriving DecidableEq

/-- `Triad.__init__` (node-local fields). -/
def Triad.init : Triad :=
  { count := 0, micro_buf := [], micro_len := 0, self_ema := 0, self_emv := 0,
    macro_s_star := T_STAR, child_coherences := [] }

/-- Inter-scale coupling constant `Triad.C`. -/
def Triad.C : ℚ := 1

/-- The count/buffer/EMA/EMV updates at the top of `Triad.observe`
(lines 213-224). -/
def Triad.observeStats (s : Triad) (value : ℚ) : Triad :=
  let count := s.count + 1
  let buf := pushCap 64 s.micro_buf value
  let len := min (s.micro_len + 1) 64
  let ema := if count = 1 then value else (1 - SIGMA) * value + SIGMA * s.self_ema
  let emv := if count = 1 then 0
             else (1 - SIGMA) * (value - ema)^2 + SIGMA * s.self_emv
  { s with count := count, micro_buf := buf, micro_len := len,
           self_ema := ema, self_emv := emv }

/-- `own_s_star` as computed inside `Triad.observe` (lines 226-245),
as a function of the post-update state. -/
def Triad.own_s_star (sqf : ℚ → ℚ) (s : Triad) : ℚ :=
  if 4 ≤ s.micro_len then
    s_star
      (1 / (1 + (if 0 < s.self_ema then sqf s.self_emv / s.self_ema else 1)))
      (if 4 ≤ s.micro_buf.length then alignmentOf (takeLast 4 s.micro_buf) else 1/2)
  else T_STAR

/-- `Triad.observe` (node-local effect, lines 205-262): stats update,
own coherence, macro blend with the stored child coherences. -/
def Triad.observe (sqf : ℚ → ℚ) (s : Triad) (value : ℚ) : Triad :=
  let s1 := s.observeStats value
  let own := Triad.own_s_star sqf s1
  let mS := if s1.child_coherences = [] then own
            else (own + childMean s1.child_coherences * Triad.C) / (1 + Triad.C)
  { s1 with macro_s_star := mS }

/-- The own-score re-derived inside `Triad._receive_child_coherence`
(lines 285-291): EMA-based vitality with alignment fixed at 0.5. -/
def Triad.recv_own (sqf : ℚ → ℚ) (s : Triad) : ℚ :=
  if 0 < s.self_ema ∧ 4 ≤ s.micro_len then
    s_star (1 / (1 + sqf s.self_emv / s.self_ema)) (1/2)
  else T_STAR

/-- `Triad._receive_child_coherence` (node-local effect, lines 272-297). -/
def Triad.receive_child_coherence (sqf : ℚ → ℚ) (s : Triad)
    (child_name : String) (child_s : ℚ) : Triad :=
  let m := upsert s.child_coherences child_name child_s
  let mS := if m = [] then s.macro_s_star
            else (Triad.recv_own sqf s + childMean m * Triad.C) / (1 + Triad.C)
  { s with child_coherences := m, macro_s_star := mS }

/-- One event applied to a single node: either its own `observe(v)` or
a child report `_receive_child_coherence(c, v)`. -/
inductive TEvent where
  | obsE (v : ℚ)
  | reportE (c : String) (v : ℚ)
deriving DecidableEq

def stepT (sqf : ℚ → ℚ) (s : Triad) : TEvent → Triad
  | .obsE v => s.observe sqf v
  | .reportE c v => s.receive_child_coherence sqf c v

/-! ### The Pulse (src/TIGFractalEngine.py lines 65-160) -/

structure Pulse where
  target_ns : ℤ
  phase : ℚ
  ema_actual : ℚ
  ema_error : ℚ
  sigma_weight : ℚ
  fire_count : ℕ
  lock_achieved : Bool
  natural_freq : ℚ
  coherence : ℚ
  history : List ℚ
  hist_len : ℕ
deriving DecidableEq

/-- `Pulse.__init__` body (lines 82-93), for `target_hz ≠ 0`. -/
def Pulse.initRaw (target_hz : ℚ) : Pulse :=
  let t := pyTrunc (1000000000 / target_hz)
  { target_ns := t, phase := 0, ema_actual := (t : ℚ), ema_error := 0,
    sigma_weight := SIGMA, fire_count := 0, lock_achieved := false,
    natural_freq := target_hz, coherence := T_STAR, history := [], hist_len := 0 }

/-- `Pulse.__init__`: `int(1e9 / target_hz)` raises `ZeroDivisionError`
exactly when `target_hz == 0`; any other value is accepted. -/
def Pulse.init (target_hz : ℚ) : Except String Pulse :=
  if target_hz = 0 then Except.error "ZeroDivisionError"
  else Except.ok (Pulse.initRaw target_hz)

/-- The coherence computed in `Pulse.wait` once the history holds at
least 16 samples (lines 134-143). -/
def cohOf (sqf : ℚ → ℚ) (target_ns : ℤ) (ema_error : ℚ) (recent : List ℚ) : ℚ :=
  let mu := recent.sum / ((recent.length : ℕ) : ℚ)
  let var := ((recent.map (fun x => (x - mu)^2)).sum) / ((recent.length : ℕ) : ℚ)
  let cv := if 0 < mu then sqf var / mu else 1
  s_star (1 / (1 + cv)) (1 / (1 + |ema_error| / (target_ns : ℚ)))

/-- `Pulse.wait` (lines 95-160) as a state transition; the measured
elapsed time `actual_ns` is an input of the environment. -/
def Pulse.wait (sqf : ℚ → ℚ) (s : Pulse) (actual_ns : ℚ) : Pulse :=
  let a := 1 - s.sigma_weight
  let ema := a * actual_ns + s.sigma_weight * s.ema_actual
  let err := actual_ns - (s.target_ns : ℚ)
  let emaErr := a * err + s.sigma_weight * s.ema_error
  let hist := pushCap 256 s.history actual_ns
  let hlen := min (s.hist_len + 1) 256
  if 16 ≤ hlen then
    let c := cohOf sqf s.target_ns emaErr (takeLast 16 hist)
    if T_STAR ≤ c ∧ s.lock_achieved = false then
      { s with ema_actual := ema, ema_error := emaErr, history := hist,
               hist_len := hlen, coherence := c, lock_achieved := true,
               natural_freq := 1000000000 / ema,
               fire_count := s.fire_count + 1, phase := pyMod1 (s.phase + 1/10) }
    else
      { s with ema_actual := ema, ema_error := emaErr, history := hist,
               hist_len := hlen, coherence := c,
               fire_count := s.fire_count + 1, phase := pyMod1 (s.phase + 1/10) }
  else
    { s with ema_actual := ema, ema_error := emaErr, history := hist,
             hist_len := hlen,
             fire_count := s.fire_count + 1, phase := pyMod1 (s.phase + 1/10) }

/-! ### The LatticeRuntime (src/TIGFractalEngine.py lines 326-467) -/

/-- The fixed domain set `LatticeRuntime.DOMAINS`. -/
inductive Dom where
  | compute
  | memory
  | ioDom
  | net
deriving DecidableEq

def DOMAINS : List String := ["compute", "memory", "io", "net"]

/-- Membership of a string in the keys of `self.domains` /
`self.micro_triads` (both are keyed by `DOMAINS`). -/
def Dom.ofName (s : String) : Option Dom :=
  if s = "compute" then some .compute
  else if s = "memory" then some .memory
  else if s = "io" then some .ioDom
  else if s = "net" then some .net
  else none

/-- `domain.upper()` — the name a domain Triad reports under. -/
def Dom.upperName : Dom → String
  | .compute => "COMPUTE"
  | .memory => "MEMORY"
  | .ioDom => "IO"
  | .net => "NET"

/-- `f"{domain}_micro"` — the name a micro Triad reports under. -/
def Dom.microName : Dom → String
  | .compute => "compute_micro"
  | .memory => "memory_micro"
  | .ioDom => "io_micro"
  | .net => "net_micro"

structure LatticeRuntime where
  pulse : Pulse
  root : Triad
  epoch : Triad
  domains : Dom → Triad
  micro_triads : Dom → Triad
  spine : Fin 10 → ℚ
  spine_phase : Fin 10
  ops_total : ℕ
  ops_by_domain : List (String × ℕ)
  epoch_count : ℕ

/-- `LatticeRuntime.__init__` body (lines 352-381), for `pulse_hz ≠ 0`. -/
def LatticeRuntime.initRaw (pulse_hz : ℚ) : LatticeRuntime :=
  { pulse := Pulse.initRaw pulse_hz,
    root := Triad.init, epoch := Triad.init,
    domains := fun _ => Triad.init, micro_triads := fun _ => Triad.init,
    spine := fun _ => T_STAR, spine_phase := 0,
    ops_total := 0, ops_by_domain := DOMAINS.map (fun d => (d, 0)),
    epoch_count := 0 }

/-- `LatticeRuntime.__init__`: constructs `Pulse(pulse_hz)` first, so it
raises exactly when the Pulse constructor does. -/
def LatticeRuntime.init (pulse_hz : ℚ) : Except String LatticeRuntime :=
  if pulse_hz = 0 then Except.error "ZeroDivisionError"
  else Except.ok (LatticeRuntime.initRaw pulse_hz)

/-- `LatticeRuntime._advance_spine` (lines 383-424).  `noise` stands for
`random.gauss(0, 0.001)` and `sinv` for
`math.sin(self.pulse.fire_count * 0.1)`. -/
def LatticeRuntime.advance_spine (sqf : ℚ → ℚ) (s : LatticeRuntime)
    (noise sinv : ℚ) : LatticeRuntime :=
  let i := s.spine_phase
  let prev := s.spine (i - 1)
  let old := s.spine i
  let raw : ℚ :=
    if i = 0 then prev * (1 - SIGMA) * (1/10)
    else if i = 1 then old * SIGMA + prev * (1 - SIGMA)
    else if i = 2 then |old - prev| * SIGMA + old * (1 - SIGMA)
    else if i = 3 then old + (1 - old) * (1 - SIGMA)
    else if i = 4 then old * SIGMA
    else if i = 5 then (old + (∑ j : Fin 10, s.spine j) / 10) / 2
    else if i = 6 then old * SIGMA + noise
    else if i = 7 then sqf (max (1/1000) (old * prev))
    else if i = 8 then old * (1 + (5/1000) * sinv)
    else old * SIGMA + T_STAR * (1 - SIGMA)
  let newv := max (1/1000) (min 1 raw)
  { s with spine := Function.update s.spine i newv,
           spine_phase := i + 1,
           epoch_count := if i + 1 = 0 then s.epoch_count + 1 else s.epoch_count }

/-- `self.micro_triads[domain].observe(elapsed_us)` together with the
upward child-report chain it triggers:
micro → domain → epoch → root. -/
def LatticeRuntime.feedMicro (sqf : ℚ → ℚ) (s : LatticeRuntime) (d : Dom)
    (v : ℚ) : LatticeRuntime :=
  let m := (s.micro_triads d).observe sqf v
  let dt := (s.domains d).receive_child_coherence sqf d.microName m.macro_s_star
  let et := s.epoch.receive_child_coherence sqf d.upperName dt.macro_s_star
  let rt := s.root.receive_child_coherence sqf "EPOCH" et.macro_s_star
  { s with micro_triads := Function.update s.micro_triads d m,
           domains := Function.update s.domains d dt, epoch := et, root := rt }

/-- `self.domains[domain].observe(weighted)` together with the upward
chain: domain → epoch → root. -/
def LatticeRuntime.feedDomain (sqf : ℚ → ℚ) (s : LatticeRuntime) (d : Dom)
    (v : ℚ) : LatticeRuntime :=
  let dt := (s.domains d).observe sqf v
  let et := s.epoch.receive_child_coherence sqf d.upperName dt.macro_s_star
  let rt := s.root.receive_child_coherence sqf "EPOCH" et.macro_s_star
  { s with domains := Function.update s.domains d dt, epoch := et, root := rt }

/-- `LatticeRuntime.op` (lines 426-467).  `work` is the wrapped
callable: `.ok r` returns `r`, `.error e` raises; `elapsed_us` is the
measured duration of a successful call.  A raise unwinds before `t1` is
taken, so only the two counter updates (which precede the call) have
happened. -/
def LatticeRuntime.op {ε α : Type} (sqf : ℚ → ℚ) (noise sinv : ℚ)
    (s : LatticeRuntime) (domain : String) (work : Except ε α)
    (elapsed_us : ℚ) : LatticeRuntime × Except ε α :=
  let s1 := { s with ops_total := s.ops_total + 1,
                     ops_by_domain := bumpCount s.ops_by_domain domain }
  let spine_val := s1.spine s1.spine_phase
  match work with
  | .error e => (s1, .error e)
  | .ok r =>
    let s2 := match Dom.ofName domain with
      | some d => s1.feedMicro sqf d elapsed_us
      | none => s1
    let s3 := match Dom.ofName domain with
      | some d => s2.feedDomain sqf d (elapsed_us * spine_val)
      | none => s2
    let s4 := s3.advance_spine sqf noise sinv
    (s4, .ok r)

/-! ### Definitions following the specification's words, for the
refinement claims -/

def clampQ (x lo hi : ℚ) : ℚ := max lo (min hi x)

/-- Modelled from the claim's words (C6): `own_score =
clamp(σ·vitality·alignment, 0, 1)` with `vitality = 1/(1+cv)`,
`cv = sqrt(variance)/mean`, and alignment 1.0 on a monotonic last-4
window, else the fraction of adjacent-pair sign agreements among the
recent differences; fewer than 4 samples default to T*. -/
def specOwnScore (sqf : ℚ → ℚ) (s : Triad) : ℚ :=
  if s.micro_len < 4 then T_STAR
  else
    clampQ (SIGMA * (1 / (1 + sqf s.self_emv / s.self_ema)) *
        (if (∀ d ∈ diffsOf (takeLast 4 s.micro_buf), 0 ≤ d) ∨
            (∀ d ∈ diffsOf (takeLast 4 s.micro_buf), d ≤ 0) then 1
         else (sameCount (diffsOf (takeLast 4 s.micro_buf)) : ℚ) /
           (((diffsOf (takeLast 4 s.micro_buf)).length - 1 : ℕ) : ℚ)))
      0 1

/-- The amended C6 formula: `own_score = σ(1−σ*)·vitality·alignment`
(no clamp), with `cv = sqrt(variance)/mean` when the mean is positive
(else 1), and alignment `(agreements + 1) / len(diffs)` in the
non-monotonic case. -/
def amendedOwnScore (sqf : ℚ → ℚ) (s : Triad) : ℚ :=
  if s.micro_len < 4 then T_STAR
  else
    SIGMA * (1 - SIGMA_STAR) *
      (1 / (1 + (if 0 < s.self_ema then sqf s.self_emv / s.self_ema else 1))) *
      (if (∀ d ∈ diffsOf (takeLast 4 s.micro_buf), 0 ≤ d) ∨
          (∀ d ∈ diffsOf (takeLast 4 s.micro_buf), d ≤ 0) then 1
       else ((sameCount (diffsOf (takeLast 4 s.micro_buf)) : ℚ) + 1) /
         (((diffsOf (takeLast 4 s.micro_buf)).length : ℕ) : ℚ))

/-! ### Concrete states used for evaluation -/

/-- A node after `observe(1); observe(1); observe(1); observe(1)`. -/
def obs1111 : Triad :=
  [1, 1, 1, 1].foldl (fun st v => st.observe sqrtZero v) Triad.init

/-- A node after `observe(1); observe(2); observe(1); observe(2)`. -/
def obs1212 : Triad :=
  [1, 2, 1, 2].foldl (fun st v => st.observe sqrtZero v) Triad.init

/-- A pulse that has already locked. -/
def lockedP : Pulse := { Pulse.initRaw 1000 with lock_achieved := true }

/-- An unlocked pulse with 15 stable samples in its history, one call
away from the first lock evaluation. -/
def prelockP : Pulse :=
  { Pulse.initRaw 1000 with history := List.replicate 15 1000000, hist_len := 15 }

/-- Node-local invariant carried through every `observe`/report step:
non-negative variance estimate, stored child scores within `[0,1]`,
and a blended score within `[0,1]`. -/
def GoodT (s : Triad) : Prop :=
  0 ≤ s.self_emv ∧ (∀ p ∈ s.child_coherences, 0 ≤ p.2 ∧ p.2 ≤ 1) ∧
    0 ≤ s.macro_s_star ∧ s.macro_s_star ≤ 1

/-! ### Helper lemmas -/

theorem upsert_ne_nil {β : Type} (m : List (String × β)) (k : String) (v : β) :
    upsert m k v ≠ [] := by
  cases m with
  | nil => simp [upsert]
  | cons p rest =>
    rcases p with ⟨k', v'⟩
    simp only [upsert]
    split <;> simp

theorem upsert_forall {β : Type} (P : β → Prop) :
    ∀ (m : List (String × β)) (k : String) (v : β),
      (∀ p ∈ m, P p.2) → P v → ∀ p ∈ upsert m k v, P p.2 := by
  intro m
  induction m with
  | nil =>
    intro k v _ hv p hp
    simp only [upsert, List.mem_singleton] at hp
    subst hp
    exact hv
  | cons q rest ih =>
    intro k v hm hv p hp
    rcases q with ⟨k', v'⟩
    simp only [upsert] at hp
    by_cases h : k' = k
    · rw [if_pos h] at hp
      rcases List.mem_cons.mp hp with h1 | h1
      · subst h1; exact hv
      · exact hm _ (List.mem_cons_of_mem _ h1)
    · rw [if_neg h] at hp
      rcases List.mem_cons.mp hp with h1 | h1
      · subst h1; exact hm _ (List.mem_cons_self _ _)
      · exact ih k v (fun r hr => hm r (List.mem_cons_of_mem _ hr)) hv _ h1

theorem sum_nonneg_of (l : List ℚ) (h : ∀ x ∈ l, 0 ≤ x) : 0 ≤ l.sum := by
  induction l with
  | nil => simp
  | cons a t ih =>
    simp only [List.sum_cons]
    have ha := h a (by simp)
    have ht := ih (fun x hx => h x (by simp [hx]))
    linarith

theorem sum_le_length (l : List ℚ) (h : ∀ x ∈ l, x ≤ 1) :
    l.sum ≤ (l.length : ℚ) := by
  induction l with
  | nil => simp
  | cons a t ih =>
    simp only [List.sum_cons, List.length_cons]
    have ha := h a (by simp)
    have ht := ih (fun x hx => h x (by simp [hx]))
    push_cast
    linarith

theorem childMean_mem (m : List (String × ℚ)) (hne : m ≠ [])
    (hb : ∀ p ∈ m, 0 ≤ p.2 ∧ p.2 ≤ 1) : 0 ≤ childMean m ∧ childMean m ≤ 1 := by
  have hlen : 0 < (m.map Prod.snd).length := by
    simpa using List.length_pos.mpr hne
  have hlenQ : (0 : ℚ) < (((m.map Prod.snd).length : ℕ) : ℚ) := by
    exact_mod_cast hlen
  have h0 : 0 ≤ (m.map Prod.snd).sum := by
    apply sum_nonneg_of
    intro x hx
    rcases List.mem_map.mp hx with ⟨p, hp, rfl⟩
    exact (hb p hp).1
  have h1 : (m.map Prod.snd).sum ≤ (((m.map Prod.snd).length : ℕ) : ℚ) := by
    apply sum_le_length
    intro x hx
    rcases List.mem_map.mp hx with ⟨p, hp, rfl⟩
    exact (hb p hp).2
  unfold childMean
  constructor
  · exact div_nonneg h0 (le_of_lt hlenQ)
  · rw [div_le_one hlenQ]
    exact h1

theorem sameCount_succ_le (ds : List ℚ) (h : ds ≠ []) :
    sameCount ds + 1 ≤ ds.length := by
  induction ds with
  | nil => exact absurd rfl h
  | cons a t ih =>
    cases t with
    | nil => simp [sameCount]
    | cons b r =>
      have hb := ih (by simp)
      simp only [sameCount, List.length_cons] at *
      split <;> omega

theorem alignmentOf_mem (l : List ℚ) : 0 ≤ alignmentOf l ∧ alignmentOf l ≤ 1 := by
  unfold alignmentOf
  split
  · norm_num
  · rename_i hcond
    have hne : diffsOf l ≠ [] := by
      intro hnil
      exact hcond (Or.inl (fun d hd => by rw [hnil] at hd; simp at hd))
    have hlen : 0 < (diffsOf l).length := List.length_pos.mpr hne
    have hlenQ : (0 : ℚ) < ((diffsOf l).length : ℚ) := by exact_mod_cast hlen
    have hsc := sameCount_succ_le (diffsOf l) hne
    constructor
    · positivity
    · rw [div_le_one hlenQ]
      exact_mod_cast hsc

theorem s_star_mem (V A : ℚ) (hV0 : 0 ≤ V) (hV1 : V ≤ 1) (hA0 : 0 ≤ A)
    (hA1 : A ≤ 1) : 0 ≤ s_star V A ∧ s_star V A ≤ 1 := by
  unfold s_star FACTOR SIGMA SIGMA_STAR
  constructor
  · positivity
  · nlinarith [mul_nonneg hV0 hA0, mul_le_one₀ hV1 hA0 hA1]

theorem vit_mem (cv : ℚ) (h : 0 ≤ cv) :
    0 ≤ 1 / (1 + cv) ∧ 1 / (1 + cv) ≤ 1 := by
  have h1 : (0 : ℚ) < 1 + cv := by linarith
  constructor
  · positivity
  · rw [div_le_one h1]
    linarith

theorem own_s_star_mem (sqf : ℚ → ℚ) (hs : ∀ x, 0 ≤ x → 0 ≤ sqf x) (s : Triad)
    (hemv : 0 ≤ s.self_emv) :
    0 ≤ Triad.own_s_star sqf s ∧ Triad.own_s_star sqf s ≤ 1 := by
  unfold Triad.own_s_star
  split
  · have hcv : 0 ≤ (if 0 < s.self_ema then sqf s.self_emv / s.self_ema else 1) := by
      split
      · exact div_nonneg (hs _ hemv) (le_of_lt (by assumption))
      · norm_num
    obtain ⟨hv0, hv1⟩ := vit_mem _ hcv
    have hA : 0 ≤ (if 4 ≤ s.micro_buf.length then
          alignmentOf (takeLast 4 s.micro_buf) else 1/2) ∧
        (if 4 ≤ s.micro_buf.length then
          alignmentOf (takeLast 4 s.micro_buf) else 1/2) ≤ 1 := by
      split
      · exact alignmentOf_mem _
      · norm_num
    exact s_star_mem _ _ hv0 hv1 hA.1 hA.2
  · norm_num [T_STAR]

theorem recv_own_mem (sqf : ℚ → ℚ) (hs : ∀ x, 0 ≤ x → 0 ≤ sqf x) (s : Triad)
    (hemv : 0 ≤ s.self_emv) :
    0 ≤ Triad.recv_own sqf s ∧ Triad.recv_own sqf s ≤ 1 := by
  unfold Triad.recv_own
  split
  · rename_i h
    have hcv : 0 ≤ sqf s.self_emv / s.self_ema :=
      div_nonneg (hs _ hemv) (le_of_lt h.1)
    obtain ⟨hv0, hv1⟩ := vit_mem _ hcv
    exact s_star_mem _ _ hv0 hv1 (by norm_num) (by norm_num)
  · norm_num [T_STAR]

theorem observeStats_emv_nonneg (s : Triad) (v : ℚ) (h : 0 ≤ s.self_emv) :
    0 ≤ (s.observeStats v).self_emv := by
  unfold Triad.observeStats
  dsimp only
  split
  · exact le_refl 0
  · have hsq := sq_nonneg (v - ((1 - SIGMA) * v + SIGMA * s.self_ema))
    unfold SIGMA at *
    nlinarith

theorem observe_blend_eq (sqf : ℚ → ℚ) (s : Triad) (v : ℚ) :
    (s.observe sqf v).macro_s_star =
      if s.child_coherences = [] then Triad.own_s_star sqf (s.observeStats v)
      else (Triad.own_s_star sqf (s.observeStats v) +
        childMean s.child_coherences * Triad.C) / (1 + Triad.C) := rfl

theorem receive_blend_eq (sqf : ℚ → ℚ) (s : Triad) (c : String) (v : ℚ) :
    (s.receive_child_coherence sqf c v).macro_s_star =
      if upsert s.child_coherences c v = [] then s.macro_s_star
      else (Triad.recv_own sqf s +
        childMean (upsert s.child_coherences c v) * Triad.C) / (1 + Triad.C) := rfl

theorem observe_good (sqf : ℚ → ℚ) (hs : ∀ x, 0 ≤ x → 0 ≤ sqf x) (s : Triad)
    (v : ℚ) (h : GoodT s) : GoodT (s.observe sqf v) := by
  obtain ⟨hemv, hch, hm0, hm1⟩ := h
  have hemv' : 0 ≤ (s.observeStats v).self_emv := observeStats_emv_nonneg s v hemv
  obtain ⟨ho0, ho1⟩ := own_s_star_mem sqf hs _ hemv'
  refine ⟨hemv', hch, ?_, ?_⟩
  · rw [observe_blend_eq]
    split
    · exact ho0
    · rename_i hne
      obtain ⟨hc0, hc1⟩ := childMean_mem _ hne hch
      unfold Triad.C
      rw [mul_one]
      exact div_nonneg (by linarith) (by norm_num)
  · rw [observe_blend_eq]
    split
    · exact ho1
    · rename_i hne
      obtain ⟨hc0, hc1⟩ := childMean_mem _ hne hch
      unfold Triad.C
      rw [mul_one, div_le_one (by norm_num)]
      linarith

theorem receive_good (sqf : ℚ → ℚ) (hs : ∀ x, 0 ≤ x → 0 ≤ sqf x) (s : Triad)
    (c : String) (v : ℚ) (h : GoodT s) (hv0 : 0 ≤ v) (hv1 : v ≤ 1) :
    GoodT (s.receive_child_coherence sqf c v) := by
  obtain ⟨hemv, hch, _, _⟩ := h
  obtain ⟨hr0, hr1⟩ := recv_own_mem sqf hs s hemv
  have hch' : ∀ p ∈ upsert s.child_coherences c v, 0 ≤ p.2 ∧ p.2 ≤ 1 :=
    upsert_forall (fun x => 0 ≤ x ∧ x ≤ 1) s.child_coherences c v hch ⟨hv0, hv1⟩
  have hne := upsert_ne_nil s.child_coherences c v
  obtain ⟨hc0, hc1⟩ := childMean_mem _ hne hch'
  refine ⟨hemv, hch', ?_, ?_⟩
  · rw [receive_blend_eq, if_neg hne]
    unfold Triad.C
    rw [mul_one]
    exact div_nonneg (by linarith) (by norm_num)
  · rw [receive_blend_eq, if_neg hne]
    unfold Triad.C
    rw [mul_one, div_le_one (by norm_num)]
    linarith

theorem goodT_init : GoodT Triad.init := by
  refine ⟨le_refl _, ?_, ?_, ?_⟩
  · intro p hp
    simp [Triad.init] at hp
  · norm_num [Triad.init, T_STAR]
  · norm_num [Triad.init, T_STAR]

theorem fold_good (sqf : ℚ → ℚ) (hs : ∀ x, 0 ≤ x → 0 ≤ sqf x)
    (evs : List TEvent)
    (hr : ∀ c v, TEvent.reportE c v ∈ evs → 0 ≤ v ∧ v ≤ 1)
    (s : Triad) (h : GoodT s) : GoodT (evs.foldl (stepT sqf) s) := by
  induction evs generalizing s with
  | nil => exact h
  | cons e t ih =>
    simp only [List.foldl_cons]
    refine ih (fun c v hm => hr c v (by simp [hm])) _ ?_
    cases e with
    | obsE v => exact observe_good sqf hs s v h
    | reportE c v =>
      exact receive_good sqf hs s c v h (hr c v (by simp)).1 (hr c v (by simp)).2

theorem receive_child (sqf : ℚ → ℚ) (s : Triad) (c : String) (v : ℚ) :
    (s.receive_child_coherence sqf c v).child_coherences =
      upsert s.child_coherences c v := rfl

/-- Claim C1: for every aggregator node (Triad) and every finite
sequence of observe() calls and child reports applied to it (reports
carrying scores in [0,1], as reports inside the runtime tree always
do), the own score computed inside observe and the blended score
macro_s_star lie within [0,1] after every step. -/
theorem c1_boundedness (sqf : ℚ → ℚ) (hs : ∀ x, 0 ≤ x → 0 ≤ sqf x)
    (evs : List TEvent)
    (hr : ∀ c v, TEvent.reportE c v ∈ evs → 0 ≤ v ∧ v ≤ 1) :
    (0 ≤ (evs.foldl (stepT sqf) Triad.init).macro_s_star ∧
      (evs.foldl (stepT sqf) Triad.init).macro_s_star ≤ 1) ∧
    (∀ v : ℚ,
      0 ≤ Triad.own_s_star sqf
          ((evs.foldl (stepT sqf) Triad.init).observeStats v) ∧
      Triad.own_s_star sqf
          ((evs.foldl (stepT sqf) Triad.init).observeStats v) ≤ 1) := by
  have hg := fold_good sqf hs evs hr Triad.init goodT_init
  exact ⟨⟨hg.2.2.1, hg.2.2.2⟩,
    fun v => own_s_star_mem sqf hs _ (observeStats_emv_nonneg _ v hg.1)⟩

theorem c1_boundedness_witness :
    (0 ≤ ([TEvent.obsE 1, TEvent.reportE "a" (1/2)].foldl (stepT sqrtZero)
        Triad.init).macro_s_star ∧
      ([TEvent.obsE 1, TEvent.reportE "a" (1/2)].foldl (stepT sqrtZero)
        Triad.init).macro_s_star ≤ 1) ∧
    (0 ≤ Triad.own_s_star sqrtZero
        (([TEvent.obsE 1, TEvent.reportE "a" (1/2)].foldl (stepT sqrtZero)
          Triad.init).observeStats 5) ∧
      Triad.own_s_star sqrtZero
        (([TEvent.obsE 1, TEvent.reportE "a" (1/2)].foldl (stepT sqrtZero)
          Triad.init).observeStats 5) ≤ 1) := by
  have h := c1_boundedness sqrtZero (fun x _ => le_refl 0)
    [TEvent.obsE 1, TEvent.reportE "a" (1/2)]
    (by
      intro c v hm
      simp only [List.mem_cons, List.not_mem_nil, or_false] at hm
      rcases hm with hm | hm
      · exact absurd hm (by simp)
      · rw [TEvent.reportE.injEq] at hm
        rw [hm.2]
        norm_num)
  exact ⟨h.1, h.2 5⟩

/-- Claim C2: for a parent node with (at most) the single child `c` in
its child-score map and frozen own-node state, two consecutive child
reports with values v1 then v2 move the parent's blended score by
exactly (v2 - v1)/2 — no damping at the hop. -/
theorem c2_lossless_propagation (sqf : ℚ → ℚ) (p : Triad) (c : String)
    (v1 v2 : ℚ)
    (h : p.child_coherences = [] ∨ ∃ w, p.child_coherences = [(c, w)]) :
    ((p.receive_child_coherence sqf c v1).receive_child_coherence
        sqf c v2).macro_s_star -
      (p.receive_child_coherence sqf c v1).macro_s_star = (v2 - v1) / 2 := by
  have h1 : upsert p.child_coherences c v1 = [(c, v1)] := by
    rcases h with h | ⟨w, h⟩ <;> simp [h, upsert]
  have hrc : (p.receive_child_coherence sqf c v1).child_coherences = [(c, v1)] := by
    rw [receive_child, h1]
  have hro : Triad.recv_own sqf (p.receive_child_coherence sqf c v1) =
      Triad.recv_own sqf p := rfl
  have h2 : upsert (p.receive_child_coherence sqf c v1).child_coherences c v2 =
      [(c, v2)] := by
    rw [hrc]
    simp [upsert]
  rw [receive_blend_eq sqf (p.receive_child_coherence sqf c v1) c v2, h2,
    receive_blend_eq sqf p c v1, h1, if_neg (by simp), if_neg (by simp), hro]
  norm_num [childMean, Triad.C]
  ring

theorem c2_lossless_propagation_witness :
    ((Triad.init.receive_child_coherence sqrtZero "x" 0).receive_child_coherence
        sqrtZero "x" 1).macro_s_star -
      (Triad.init.receive_child_coherence sqrtZero "x" 0).macro_s_star =
      (1 - 0) / 2 :=
  c2_lossless_propagation sqrtZero Triad.init "x" 0 1 (Or.inl rfl)

/-- Claim C5 counterexample: after four observe(1) calls (where the
most recent observe computed own score `Triad.own_s_star sqrtZero
obs1111` = 0.982081), a child report does NOT blend that cached own
score — `_receive_child_coherence` re-derives an own score with
alignment fixed at 0.5 instead.  Only `sqf 0` is reached here, where
`sqrtZero` agrees with `math.sqrt`. -/
theorem c5_counterexample :
    (obs1111.receive_child_coherence sqrtZero "child" (1/2)).macro_s_star ≠
      (Triad.own_s_star sqrtZero obs1111 +
        childMean (upsert obs1111.child_coherences "child" (1/2)) * Triad.C) /
        (1 + Triad.C) := by
  norm_num [obs1111, Triad.init, Triad.observe, Triad.observeStats,
    Triad.own_s_star, Triad.receive_child_coherence, Triad.recv_own, upsert,
    pushCap, takeLast, alignmentOf, diffsOf, sameCount, childMean, s_star,
    T_STAR, SIGMA, FACTOR, SIGMA_STAR, sqrtZero, Triad.C, List.foldl]

/-- Claim C5 (amended): `receive_child_report` recomputes the blended
score from the just-updated child map together with an own score
re-derived from the node's smoothed mean/variance with alignment fixed
at 0.5 (T* when the mean is non-positive or fewer than 4 samples); it
leaves the raw observation history and the smoothed statistics
untouched and its result never depends on the raw buffer. -/
theorem c5_receive_recompute (sqf : ℚ → ℚ) (s : Triad) (c : String) (v : ℚ) :
    (s.receive_child_coherence sqf c v).macro_s_star =
      (Triad.recv_own sqf s +
        childMean (upsert s.child_coherences c v) * Triad.C) / (1 + Triad.C) ∧
    (s.receive_child_coherence sqf c v).micro_buf = s.micro_buf ∧
    (s.receive_child_coherence sqf c v).self_ema = s.self_ema ∧
    (s.receive_child_coherence sqf c v).self_emv = s.self_emv ∧
    (s.receive_child_coherence sqf c v).count = s.count ∧
    (∀ buf : List ℚ,
      (Triad.receive_child_coherence sqf { s with micro_buf := buf }
        c v).macro_s_star =
        (s.receive_child_coherence sqf c v).macro_s_star) := by
  refine ⟨?_, rfl, rfl, rfl, rfl, ?_⟩
  · rw [receive_blend_eq, if_neg (upsert_ne_nil _ _ _)]
  · intro buf
    rw [receive_blend_eq, receive_blend_eq, if_neg (upsert_ne_nil _ _ _),
      if_neg (upsert_ne_nil _ _ _)]
    rfl

/-- Claim C6 counterexample, at two concrete nodes.  After
`observe(1)` four times the code's own score is
`σ(1-σ*)·1·1 = 0.982081`, not the claimed `clamp(σ·1·1,0,1) = 0.991`;
after `observe` of 1,2,1,2 the code's alignment is `(0+1)/3 = 1/3`
(so the own score is nonzero) while the claimed "fraction of
adjacent-pair sign agreements" is `0/2 = 0` (so the claimed score is
0).  On both evaluation paths only `sqf 0` is reached, where
`sqrtZero` agrees with `math.sqrt`. -/
theorem c6_counterexample :
    Triad.own_s_star sqrtZero obs1111 ≠ specOwnScore sqrtZero obs1111 ∧
    Triad.own_s_star sqrtZero obs1212 ≠ specOwnScore sqrtZero obs1212 := by
  constructor <;>
    norm_num [obs1111, obs1212, Triad.init, Triad.observe, Triad.observeStats,
      Triad.own_s_star, specOwnScore, clampQ,
      pushCap, takeLast, alignmentOf, diffsOf, sameCount, childMean, s_star,
      T_STAR, SIGMA, FACTOR, SIGMA_STAR, sqrtZero, Triad.C, List.foldl]

/-- Claim C6 (amended): with at least 4 observations the code computes
`own_score = σ(1-σ*)·vitality·alignment` with no clamp (the product
already lies in [0,1], see `c1_boundedness`), where `cv =
sqrt(variance)/mean` if the mean is positive (else 1) and the
non-monotonic alignment is `(agreements+1)/len(diffs)`; with fewer
than 4 observations it defaults to T*.  The hypothesis relates the
buffer to its length counter, which holds of every reachable state. -/
theorem c6_own_score (sqf : ℚ → ℚ) (s : Triad)
    (hbuf : s.micro_len ≤ s.micro_buf.length) :
    Triad.own_s_star sqf s = amendedOwnScore sqf s := by
  unfold Triad.own_s_star amendedOwnScore
  by_cases h : 4 ≤ s.micro_len
  · rw [if_pos h, if_neg (show ¬s.micro_len < 4 by omega),
      if_pos (show 4 ≤ s.micro_buf.length by omega)]
    unfold alignmentOf s_star FACTOR
    ring
  · rw [if_neg h, if_pos (show s.micro_len < 4 by omega)]

theorem c6_own_score_witness :
    obs1111.micro_len ≤ obs1111.micro_buf.length ∧
      Triad.own_s_star sqrtZero obs1111 = amendedOwnScore sqrtZero obs1111 :=
  ⟨by
    norm_num [obs1111, Triad.init, Triad.observe, Triad.observeStats,
      Triad.own_s_star, pushCap, takeLast, alignmentOf, diffsOf, sameCount,
      childMean, s_star, T_STAR, SIGMA, FACTOR, SIGMA_STAR, sqrtZero, Triad.C,
      List.foldl],
    c6_own_score sqrtZero obs1111 (by
      norm_num [obs1111, Triad.init, Triad.observe, Triad.observeStats,
        Triad.own_s_star, pushCap, takeLast, alignmentOf, diffsOf, sameCount,
        childMean, s_star, T_STAR, SIGMA, FACTOR, SIGMA_STAR, sqrtZero, Triad.C,
        List.foldl])⟩

theorem wait_locked_step (sqf : ℚ → ℚ) (s : Pulse) (a : ℚ)
    (h : s.lock_achieved = true) :
    (Pulse.wait sqf s a).lock_achieved = true ∧
      (Pulse.wait sqf s a).natural_freq = s.natural_freq := by
  unfold Pulse.wait
  dsimp only
  split
  · split
    · rename_i hc
      rw [h] at hc
      exact absurd hc.2 (by simp)
    · exact ⟨h, rfl⟩
  · exact ⟨h, rfl⟩

theorem wait_locked_fold (sqf : ℚ → ℚ) (l : List ℚ) (s : Pulse)
    (h : s.lock_achieved = true) :
    (l.foldl (Pulse.wait sqf) s).lock_achieved = true ∧
      (l.foldl (Pulse.wait sqf) s).natural_freq = s.natural_freq := by
  induction l generalizing s with
  | nil => exact ⟨h, rfl⟩
  | cons a t ih =>
    simp only [List.foldl_cons]
    obtain ⟨h1, h2⟩ := wait_locked_step sqf s a h
    obtain ⟨h3, h4⟩ := ih _ h1
    exact ⟨h3, h4.trans h2⟩

theorem wait_lock_moment (sqf : ℚ → ℚ) (s : Pulse) (a : ℚ)
    (h : s.lock_achieved = false)
    (h2 : (Pulse.wait sqf s a).lock_achieved = true) :
    (Pulse.wait sqf s a).natural_freq =
      1000000000 / (Pulse.wait sqf s a).ema_actual := by
  unfold Pulse.wait at h2 ⊢
  dsimp only at h2 ⊢
  split_ifs at h2 ⊢ with h1 hc
  · rfl
  · dsimp only at h2
    rw [h] at h2
    simp at h2
  · dsimp only at h2
    rw [h] at h2
    simp at h2

/-- Claim C7: once `lock_achieved` becomes true on a Pulse it stays
true through any further sequence of `wait` calls with any measured
durations, and `natural_freq` never changes after that; at the moment
of locking, `natural_freq` is set to `1e9 / ema_actual` (the freshly
updated smoothed interval). -/
theorem c7_pulse_lock_monotonic :
    (∀ (sqf : ℚ → ℚ) (s : Pulse) (l : List ℚ), s.lock_achieved = true →
      (l.foldl (Pulse.wait sqf) s).lock_achieved = true ∧
        (l.foldl (Pulse.wait sqf) s).natural_freq = s.natural_freq) ∧
    (∀ (sqf : ℚ → ℚ) (s : Pulse) (a : ℚ), s.lock_achieved = false →
      (Pulse.wait sqf s a).lock_achieved = true →
      (Pulse.wait sqf s a).natural_freq =
        1000000000 / (Pulse.wait sqf s a).ema_actual) :=
  ⟨fun sqf s l h => wait_locked_fold sqf l s h, wait_lock_moment⟩

theorem c7_pulse_lock_monotonic_witness :
    (([5, 7].foldl (Pulse.wait sqrtZero) lockedP).lock_achieved = true ∧
      ([5, 7].foldl (Pulse.wait sqrtZero) lockedP).natural_freq =
        lockedP.natural_freq) ∧
    (Pulse.wait sqrtZero prelockP 1000000).natural_freq =
      1000000000 / (Pulse.wait sqrtZero prelockP 1000000).ema_actual :=
  ⟨c7_pulse_lock_monotonic.1 sqrtZero lockedP [5, 7] rfl,
    c7_pulse_lock_monotonic.2 sqrtZero prelockP 1000000 rfl (by
      norm_num [prelockP, Pulse.initRaw, Pulse.wait, cohOf, pushCap, takeLast,
        pyTrunc, pyMod1, s_star, T_STAR, SIGMA, FACTOR, SIGMA_STAR, sqrtZero,
        List.replicate])⟩

theorem wait_prelock_step (sqf : ℚ → ℚ) (s : Pulse) (a : ℚ)
    (h : s.hist_len + 1 < 16) :
    (Pulse.wait sqf s a).coherence = s.coherence ∧
      (Pulse.wait sqf s a).lock_achieved = s.lock_achieved ∧
      (Pulse.wait sqf s a).hist_len = s.hist_len + 1 := by
  unfold Pulse.wait
  dsimp only
  split_ifs with h1
  · exact absurd h1 (by omega)
  · exact absurd h1 (by omega)
  · refine ⟨rfl, rfl, ?_⟩
    show min (s.hist_len + 1) 256 = s.hist_len + 1
    omega

theorem wait_prelock_fold (sqf : ℚ → ℚ) (l : List ℚ) (s : Pulse)
    (h : s.hist_len + l.length ≤ 15) :
    (l.foldl (Pulse.wait sqf) s).coherence = s.coherence ∧
      (l.foldl (Pulse.wait sqf) s).lock_achieved = s.lock_achieved ∧
      (l.foldl (Pulse.wait sqf) s).hist_len = s.hist_len + l.length := by
  induction l generalizing s with
  | nil => exact ⟨rfl, rfl, by simp⟩
  | cons a t ih =>
    simp only [List.foldl_cons, List.length_cons] at h ⊢
    obtain ⟨hs1, hs2, hs3⟩ := wait_prelock_step sqf s a (by omega)
    obtain ⟨ht1, ht2, ht3⟩ := ih (Pulse.wait sqf s a) (by rw [hs3]; omega)
    refine ⟨ht1.trans hs1, ht2.trans hs2, ?_⟩
    rw [ht3, hs3]
    omega

theorem wait_16_step (sqf : ℚ → ℚ) (s : Pulse) (a : ℚ) (hl : s.hist_len = 15)
    (hk : s.lock_achieved = false) :
    (Pulse.wait sqf s a).hist_len = 16 ∧
      ((Pulse.wait sqf s a).lock_achieved = true ↔
        T_STAR ≤ (Pulse.wait sqf s a).coherence) := by
  unfold Pulse.wait
  dsimp only
  split_ifs with h1 hc
  · refine ⟨?_, ?_⟩
    · show min (s.hist_len + 1) 256 = 16
      omega
    · simp only [show (true = true) = True from by simp, true_iff]
      exact hc.1
  · refine ⟨?_, ?_⟩
    · show min (s.hist_len + 1) 256 = 16
      omega
    · dsimp only
      rw [hk]
      simp only [hk, and_true, not_le] at hc
      simp only [Bool.false_eq_true, false_iff, not_le]
      exact hc
  · exact absurd (show 16 ≤ min (s.hist_len + 1) 256 by omega) h1

/-- Claim C10: starting from a fresh Pulse, the first 15 `wait` calls
leave `lock_achieved` false and `coherence` at its initial T* whatever
the measured durations were; on the 16th call, when the sample history
reaches 16 entries, the coherence is recomputed and the lock condition
is evaluated for the first time (`lock_achieved` becomes true exactly
when the new coherence reaches T*). -/
theorem c10_warmup (sqf : ℚ → ℚ) (hz : ℚ) :
    (∀ l : List ℚ, l.length ≤ 15 →
      (l.foldl (Pulse.wait sqf) (Pulse.initRaw hz)).lock_achieved = false ∧
        (l.foldl (Pulse.wait sqf) (Pulse.initRaw hz)).coherence = T_STAR ∧
        (l.foldl (Pulse.wait sqf) (Pulse.initRaw hz)).hist_len = l.length) ∧
    (∀ (l : List ℚ) (a : ℚ), l.length = 15 →
      (Pulse.wait sqf (l.foldl (Pulse.wait sqf) (Pulse.initRaw hz)) a).hist_len
          = 16 ∧
        ((Pulse.wait sqf (l.foldl (Pulse.wait sqf) (Pulse.initRaw hz))
            a).lock_achieved = true ↔
          T_STAR ≤ (Pulse.wait sqf (l.foldl (Pulse.wait sqf) (Pulse.initRaw hz))
            a).coherence)) := by
  constructor
  · intro l hl
    obtain ⟨h1, h2, h3⟩ := wait_prelock_fold sqf l (Pulse.initRaw hz)
      (show (Pulse.initRaw hz).hist_len + l.length ≤ 15 from by
        show 0 + l.length ≤ 15
        omega)
    exact ⟨h2.trans rfl, h1.trans rfl, by rw [h3]; show 0 + l.length = l.length; omega⟩
  · intro l a hl
    obtain ⟨h1, h2, h3⟩ := wait_prelock_fold sqf l (Pulse.initRaw hz)
      (show (Pulse.initRaw hz).hist_len + l.length ≤ 15 from by
        show 0 + l.length ≤ 15
        omega)
    refine wait_16_step sqf _ a ?_ h2
    rw [h3, hl]
    rfl

theorem c10_warmup_witness :
    (([1, 2, 3].foldl (Pulse.wait sqrtZero) (Pulse.initRaw 1000)).lock_achieved
        = false ∧
      ([1, 2, 3].foldl (Pulse.wait sqrtZero)
        (Pulse.initRaw 1000)).coherence = T_STAR ∧
      ([1, 2, 3].foldl (Pulse.wait sqrtZero)
        (Pulse.initRaw 1000)).hist_len = [1, 2, 3].length) ∧
    ((Pulse.wait sqrtZero ((List.replicate 15 (1000000 : ℚ)).foldl
        (Pulse.wait sqrtZero) (Pulse.initRaw 1000)) 1000000).hist_len = 16 ∧
      ((Pulse.wait sqrtZero ((List.replicate 15 (1000000 : ℚ)).foldl
          (Pulse.wait sqrtZero) (Pulse.initRaw 1000)) 1000000).lock_achieved
          = true ↔
        T_STAR ≤ (Pulse.wait sqrtZero ((List.replicate 15 (1000000 : ℚ)).foldl
          (Pulse.wait sqrtZero) (Pulse.initRaw 1000)) 1000000).coherence)) :=
  ⟨(c10_warmup sqrtZero 1000).1 [1, 2, 3] (by norm_num),
    (c10_warmup sqrtZero 1000).2 (List.replicate 15 (1000000 : ℚ)) 1000000
      (by simp)⟩

theorem advance_spine_phase (sqf : ℚ → ℚ) (s : LatticeRuntime)
    (noise sinv : ℚ) :
    (s.advance_spine sqf noise sinv).spine_phase = s.spine_phase + 1 := rfl

theorem advance_spine_epoch (sqf : ℚ → ℚ) (s : LatticeRuntime)
    (noise sinv : ℚ) :
    (s.advance_spine sqf noise sinv).epoch_count =
      if s.spine_phase + 1 = 0 then s.epoch_count + 1 else s.epoch_count := rfl

/-- Claim C8: starting from any spine stage, ten consecutive
`_advance_spine` calls (whatever the noise and sine inputs were)
return `spine_phase` to its starting value and increment
`epoch_count` by exactly one. -/
theorem c8_spine_cycle_closure (sqf : ℚ → ℚ) (s : LatticeRuntime)
    (n1 v1 n2 v2 n3 v3 n4 v4 n5 v5 n6 v6 n7 v7 n8 v8 n9 v9 n10 v10 : ℚ) :
    let t := (((((((((s.advance_spine sqf n1 v1).advance_spine sqf n2
      v2).advance_spine sqf n3 v3).advance_spine sqf n4 v4).advance_spine sqf n5
      v5).advance_spine sqf n6 v6).advance_spine sqf n7 v7).advance_spine sqf n8
      v8).advance_spine sqf n9 v9).advance_spine sqf n10 v10
    t.spine_phase = s.spine_phase ∧ t.epoch_count = s.epoch_count + 1 := by
  refine ⟨?_, ?_⟩
  · rw [advance_spine_phase, advance_spine_phase, advance_spine_phase,
      advance_spine_phase, advance_spine_phase, advance_spine_phase,
      advance_spine_phase, advance_spine_phase, advance_spine_phase,
      advance_spine_phase]
    generalize s.spine_phase = p
    fin_cases p <;> decide
  · rw [advance_spine_epoch, advance_spine_epoch, advance_spine_epoch,
      advance_spine_epoch, advance_spine_epoch, advance_spine_epoch,
      advance_spine_epoch, advance_spine_epoch, advance_spine_epoch,
      advance_spine_epoch,
      advance_spine_phase, advance_spine_phase, advance_spine_phase,
      advance_spine_phase, advance_spine_phase, advance_spine_phase,
      advance_spine_phase, advance_spine_phase, advance_spine_phase]
    generalize s.epoch_count = e
    generalize s.spine_phase = p
    fin_cases p <;> simp

theorem bumpCount_lookup_ne (l : List (String × ℕ)) (k q : String)
    (h : q ≠ k) : lookupCount (bumpCount l k) q = lookupCount l q := by
  induction l with
  | nil =>
    simp only [bumpCount, lookupCount]
    rw [if_neg (Ne.symm h)]
  | cons p rest ih =>
    rcases p with ⟨a, n⟩
    by_cases hak : a = k
    · subst hak
      simp only [bumpCount, if_pos rfl, lookupCount]
      rw [if_neg (fun hh => h (hh.symm)), if_neg (fun hh => h (hh.symm))]
    · simp only [bumpCount, if_neg hak, lookupCount]
      by_cases haq : a = q
      · rw [if_pos haq, if_pos haq]
      · rw [if_neg haq, if_neg haq]
        exact ih

/-- Claim C3 counterexample: on the initial runtime, `op` with the
unknown domain name "nonexistent" does modify `ops_by_domain` — it
inserts a fresh entry for that name (via
`ops_by_domain.get(domain, 0) + 1`), contradicting "leaves
ops_by_domain unmodified". -/
theorem c3_counterexample :
    (LatticeRuntime.op (ε := Unit) sqrtZero 0 0 (LatticeRuntime.initRaw 1000)
        "nonexistent" (Except.ok (0 : ℕ)) 5).1.ops_by_domain ≠
      (LatticeRuntime.initRaw 1000).ops_by_domain := by decide

/-- Claim C3 (amended): `op` on an unknown domain still runs the work
and returns its result unchanged, leaves every aggregator node's state
(hence every observation count) unmodified, increments `ops_total`,
advances the spine stage by one, but records the unknown name in
`ops_by_domain` — the entries of all other names (in particular the
fixed domains) are unmodified. -/
theorem c3_unknown_domain (sqf : ℚ → ℚ) (noise sinv : ℚ)
    (s : LatticeRuntime) {ε α : Type} (r : α) (elapsed : ℚ) (domain : String)
    (hd : Dom.ofName domain = none) :
    (LatticeRuntime.op (ε := ε) sqf noise sinv s domain (Except.ok r)
        elapsed).2 = Except.ok r ∧
    (LatticeRuntime.op (ε := ε) sqf noise sinv s domain (Except.ok r)
        elapsed).1.micro_triads = s.micro_triads ∧
    (LatticeRuntime.op (ε := ε) sqf noise sinv s domain (Except.ok r)
        elapsed).1.domains = s.domains ∧
    (LatticeRuntime.op (ε := ε) sqf noise sinv s domain (Except.ok r)
        elapsed).1.epoch = s.epoch ∧
    (LatticeRuntime.op (ε := ε) sqf noise sinv s domain (Except.ok r)
        elapsed).1.root = s.root ∧
    (LatticeRuntime.op (ε := ε) sqf noise sinv s domain (Except.ok r)
        elapsed).1.ops_total = s.ops_total + 1 ∧
    (LatticeRuntime.op (ε := ε) sqf noise sinv s domain (Except.ok r)
        elapsed).1.spine_phase = s.spine_phase + 1 ∧
    (LatticeRuntime.op (ε := ε) sqf noise sinv s domain (Except.ok r)
        elapsed).1.ops_by_domain = bumpCount s.ops_by_domain domain ∧
    (∀ k : String, k ≠ domain →
      lookupCount (LatticeRuntime.op (ε := ε) sqf noise sinv s domain
        (Except.ok r) elapsed).1.ops_by_domain k =
        lookupCount s.ops_by_domain k) := by
  unfold LatticeRuntime.op
  rw [hd]
  refine ⟨rfl, rfl, rfl, rfl, rfl, rfl, rfl, rfl, ?_⟩
  intro k hk
  exact bumpCount_lookup_ne s.ops_by_domain domain k hk

theorem c3_unknown_domain_witness :
    (LatticeRuntime.op (ε := Unit) sqrtZero 0 0 (LatticeRuntime.initRaw 1000)
        "nonexistent" (Except.ok (7 : ℕ)) 5).2 = Except.ok 7 ∧
    (LatticeRuntime.op (ε := Unit) sqrtZero 0 0 (LatticeRuntime.initRaw 1000)
        "nonexistent" (Except.ok (7 : ℕ)) 5).1.micro_triads =
      (LatticeRuntime.initRaw 1000).micro_triads ∧
    (LatticeRuntime.op (ε := Unit) sqrtZero 0 0 (LatticeRuntime.initRaw 1000)
        "nonexistent" (Except.ok (7 : ℕ)) 5).1.ops_total =
      (LatticeRuntime.initRaw 1000).ops_total + 1 ∧
    lookupCount (LatticeRuntime.op (ε := Unit) sqrtZero 0 0
        (LatticeRuntime.initRaw 1000) "nonexistent" (Except.ok (7 : ℕ))
        5).1.ops_by_domain "compute" =
      lookupCount (LatticeRuntime.initRaw 1000).ops_by_domain "compute" := by
  have h := c3_unknown_domain sqrtZero 0 0 (LatticeRuntime.initRaw 1000)
    (ε := Unit) (7 : ℕ) 5 "nonexistent" (by decide)
  exact ⟨h.1, h.2.1, h.2.2.2.2.2.1,
    h.2.2.2.2.2.2.2.2 "compute" (by decide)⟩

/-- Claim C4 counterexample: on the initial runtime, a failing work
item dispatched to "compute" propagates its error unchanged, but NO
timing is recorded into the domain's aggregators — the micro and
domain triads' observation counts stay 0 instead of becoming 1. -/
theorem c4_counterexample :
    (LatticeRuntime.op (α := ℕ) sqrtZero 0 0 (LatticeRuntime.initRaw 1000)
        "compute" (Except.error "boom") 5).2 = Except.error "boom" ∧
    ¬ ((LatticeRuntime.op (α := ℕ) sqrtZero 0 0 (LatticeRuntime.initRaw 1000)
        "compute" (Except.error "boom") 5).1.micro_triads Dom.compute).count =
      ((LatticeRuntime.initRaw 1000).micro_triads Dom.compute).count + 1 ∧
    ¬ ((LatticeRuntime.op (α := ℕ) sqrtZero 0 0 (LatticeRuntime.initRaw 1000)
        "compute" (Except.error "boom") 5).1.domains Dom.compute).count =
      ((LatticeRuntime.initRaw 1000).domains Dom.compute).count + 1 := by
  refine ⟨rfl, ?_, ?_⟩ <;> decide

/-- Claim C4 (amended): an error raised by the wrapped work propagates
unchanged to the caller, but the measurement is NOT recorded: the
exception unwinds before the end timestamp is taken, so no aggregator
is fed and the spine does not advance; only `ops_total` and
`ops_by_domain` (updated before the call) have changed. -/
theorem c4_error_propagation (sqf : ℚ → ℚ) (noise sinv : ℚ)
    (s : LatticeRuntime) (domain : String) {ε α : Type} (e : ε)
    (elapsed : ℚ) :
    LatticeRuntime.op (α := α) sqf noise sinv s domain (Except.error e)
        elapsed =
      ({ s with ops_total := s.ops_total + 1,
                ops_by_domain := bumpCount s.ops_by_domain domain },
        Except.error e) := rfl

/-- Claim C9 counterexample: constructing a Pulse (and hence the
runtime) with the non-positive rate -1000 Hz does NOT raise — Python's
`int(1e9 / target_hz)` only fails on 0 — so construction silently
succeeds with a negative target interval. -/
theorem c9_counterexample :
    Pulse.init (-1000) = Except.ok (Pulse.initRaw (-1000)) ∧
    LatticeRuntime.init (-1000) = Except.ok (LatticeRuntime.initRaw (-1000)) := by
  constructor
  · unfold Pulse.init
    rw [if_neg (by norm_num)]
  · unfold LatticeRuntime.init
    rw [if_neg (by norm_num)]

/-- Claim C9 (amended): construction of the Pulse or the runtime
raises (ZeroDivisionError) exactly at rate 0; every nonzero rate —
including negative ones, which are accepted silently — constructs
successfully, so in particular every rate > 0 does.  The domain set is
a fixed four-name constant, not a constructor argument, so an
empty-domain configuration cannot arise. -/
theorem c9_construction (hz : ℚ) :
    Pulse.init 0 = Except.error "ZeroDivisionError" ∧
    LatticeRuntime.init 0 = Except.error "ZeroDivisionError" ∧
    DOMAINS ≠ [] ∧
    (hz ≠ 0 → Pulse.init hz = Except.ok (Pulse.initRaw hz) ∧
      LatticeRuntime.init hz = Except.ok (LatticeRuntime.initRaw hz)) := by
  refine ⟨?_, ?_, by simp [DOMAINS], ?_⟩
  · unfold Pulse.init
    rw [if_pos rfl]
  · unfold LatticeRuntime.init
    rw [if_pos rfl]
  · intro h
    constructor
    · unfold Pulse.init
      rw [if_neg h]
    · unfold LatticeRuntime.init
      rw [if_neg h]

theorem c9_construction_witness :
    Pulse.init (-5) = Except.ok (Pulse.initRaw (-5)) ∧
      LatticeRuntime.init (-5) = Except.ok (LatticeRuntime.initRaw (-5)) :=
  (c9_construction (-5)).2.2.2 (by norm_num)

end TIGF
